import Mathlib

/-!
Verification of the pipe-mania core: a shallow embedding of the pipe
catalog, port resolver, board builder, pipe queue, water-flow traversal
state machine, score controller and longest-connected-path analyzer,
with theorems settling the specification claims.
-/

namespace PipeMania

/-- The four connection directions (`Dir` in `core/types`). -/
inductive Dir where
  | top
  | right
  | bottom
  | left
deriving DecidableEq, Repr

/-- Pipe kinds from the catalog (`PipeKind`). -/
inductive PipeKind where
  | empty
  | straight
  | curve
  | cross
  | start
deriving DecidableEq, Repr

/-- `DIRS` constant: the canonical clockwise cycle `[top, right, bottom, left]`. -/
def DIRS : List Dir := [.top, .right, .bottom, .left]

/-- `OPPOSED_DIRS` table: opposite of each direction. -/
def OPPOSED_DIRS : Dir → Dir
  | .top => .bottom
  | .bottom => .top
  | .left => .right
  | .right => .left

/-- `BASE_PORTS` table from `core/logic/pipes.ts`; the source record has no
entry for `empty`, and `getPorts` returns `[]` for a kind with no entry, so
`empty` maps to the empty list here. -/
def BASE_PORTS : PipeKind → List Dir
  | .straight => [.left, .right]
  | .curve => [.right, .bottom]
  | .cross => [.top, .right, .bottom, .left]
  | .start => [.right]
  | .empty => []

/-- `rotateDir`: shift the direction index in `DIRS` by `rot` modulo 4. -/
def rotateDir (dir : Dir) (rot : Nat) : Dir :=
  let index := DIRS.indexOf dir
  DIRS.get ⟨(index + rot) % DIRS.length, Nat.mod_lt _ (by decide)⟩

/-- `getPorts(kind, rot)`: the base ports, each rotated by `rot`. -/
def getPorts (kind : PipeKind) (rot : Nat) : List Dir :=
  (BASE_PORTS kind).map (fun dir => rotateDir dir rot)

/-- Per-cell `TileState`: optional kind, optional rotation, blocked flag
(`blocked?: boolean`, with `undefined` behaving as `false`). -/
structure TileState where
  kind : Option PipeKind := none
  rot : Option Nat := none
  blocked : Bool := false
deriving DecidableEq, Repr

/-- A tile coordinate (`{ col, row }`).  Fields are integers because the
traversal may step one cell past the grid edge before any bounds test. -/
structure Coord where
  col : Int
  row : Int
deriving DecidableEq, Repr

/-- Indexing `l[i]` on a JavaScript array with a possibly negative index:
`undefined` (`none`) outside `0 ≤ i < l.length`. -/
def listGetI {α : Type} (l : List α) (i : Int) : Option α :=
  if i < 0 then none else l[i.toNat]?

/-- `gridData[row]?.[col]` lookup. -/
def gridGet (grid : List (List TileState)) (c : Coord) : Option TileState :=
  (listGetI grid c.row).bind (fun rowL => listGetI rowL c.col)

/-- `getNextCoordinates(current, exit)` from `WaterFlowController`: the
neighboring coordinate in the exit direction.  The source returns
`undefined` only in the `default` switch branch, which is unreachable for
the four `Dir` values, so every direction yields `some`. -/
def getNextCoordinates (current : Coord) (exit : Dir) : Option Coord :=
  match exit with
  | .left => some ⟨current.col - 1, current.row⟩
  | .right => some ⟨current.col + 1, current.row⟩
  | .top => some ⟨current.col, current.row - 1⟩
  | .bottom => some ⟨current.col, current.row + 1⟩

/-- `determineExitDirection(kind, rot, incoming, filledDirs)` from
`WaterFlowController`: resolves the exit direction of the current tile
given the entry direction and the set of exits already used there. -/
def determineExitDirection (kind : PipeKind) (rot : Nat) (incoming : Option Dir)
    (filledDirs : List Dir) : Option Dir :=
  let ports := getPorts kind rot
  if kind = .start then
    ports.head?
  else
    match incoming with
    | none => none
    | some inc =>
      if inc ∉ ports then none
      else if kind = .cross then
        let primary := OPPOSED_DIRS inc
        if primary ∉ filledDirs then some primary
        else
          match ports.find? (fun d => decide (d ≠ inc ∧ d ≠ primary ∧ d ∉ filledDirs)) with
          | some alternate => some alternate
          | none => some primary
      else
        match ports.find? (fun d => decide (d ≠ inc ∧ d ∉ filledDirs)) with
        | some candidate => some candidate
        | none =>
          match ports.find? (fun d => decide (d ≠ inc)) with
          | some c => some c
          | none => some inc

/-- `canEnterTile(state, incoming)`: the neighbor is enterable when it is
present, unblocked, carries a non-empty kind, and exposes a port facing
the incoming direction. -/
def canEnterTile (state : Option TileState) (incoming : Dir) : Bool :=
  match state with
  | none => false
  | some s =>
    if s.blocked then false
    else
      match s.kind with
      | none => false
      | some .empty => false
      | some k => decide (incoming ∈ getPorts k (s.rot.getD 0))

/-- `getMaxFlowVisits(kind)` from `pipeDefinitions.ts`: the per-flow visit
cap of each kind (`empty` 0, `straight` 1, `curve` 1, `cross` 2, `start` 0). -/
def getMaxFlowVisits : PipeKind → Nat
  | .empty => 0
  | .straight => 1
  | .curve => 1
  | .cross => 2
  | .start => 0

/-- Termination reasons of a flow attempt (`FlowTerminationReason`). -/
inductive FlowTerminationReason where
  | missingPipe
  | noExit
  | outOfBounds
  | disconnected
  | manualStop
deriving DecidableEq, Repr

/-- Observable events emitted by the `ScoreController` listeners. -/
inductive ScoreEvent where
  | scoreChanged (score : Int)
  | flowProgress (progress : Nat)
  | flowCompleted (reason : FlowTerminationReason) (totalTraversed : Nat)
      (targetLength : Int) (goalAchieved : Bool)
deriving DecidableEq, Repr

/-- Look up a coordinate key in the `Map<string, number>` of per-flow visit
counts, modelled as an association list. -/
def mapGetNat (m : List (Coord × Nat)) (c : Coord) : Option Nat :=
  (m.find? (fun p => decide (p.1 = c))).map Prod.snd

/-- `Map.set` for the per-flow visit counts. -/
def mapSetNat (m : List (Coord × Nat)) (c : Coord) (v : Nat) : List (Coord × Nat) :=
  match m with
  | [] => [(c, v)]
  | p :: rest => if p.1 = c then (c, v) :: rest else p :: mapSetNat rest c v

/-- The `ScoreController` instance state: configuration, cumulative score,
per-flow visit counts and distance, flow-active flag, and the log of
events delivered to the attached listeners. -/
structure ScoreState where
  flowTileReward : Int
  replacementPenalty : Int
  targetFlowLength : Int
  allowNegativeScore : Bool
  score : Int := 0
  currentFlowTiles : List (Coord × Nat) := []
  currentFlowDistance : Nat := 0
  flowActive : Bool := false
  events : List ScoreEvent := []
deriving DecidableEq, Repr

/-- `applyScoreDelta(delta)`: add the delta, clamp at zero unless negative
scores are allowed, and skip (emitting nothing) when the clamped value
equals the current score. -/
def applyScoreDelta (s : ScoreState) (delta : Int) : ScoreState :=
  let previous := s.score
  let next0 := previous + delta
  let next := if ¬s.allowNegativeScore ∧ next0 < 0 then 0 else next0
  if previous = next then s
  else { s with score := next, events := s.events ++ [.scoreChanged next] }

/-- `handlePipePlacement({wasReplacement})`: apply the replacement penalty
to replacements only. -/
def handlePipePlacement (s : ScoreState) (wasReplacement : Bool) : ScoreState :=
  if ¬wasReplacement then s
  else applyScoreDelta s (-s.replacementPenalty)

/-- `beginFlow()`: mark a flow active, clear visit counts and distance, and
emit the zero progress. -/
def beginFlow (s : ScoreState) : ScoreState :=
  { s with flowActive := true, currentFlowTiles := [], currentFlowDistance := 0,
           events := s.events ++ [.flowProgress 0] }

/-- `registerFlowStep({tile, kind})`: while a flow is active and the tile
has not reached its kind's visit cap, bump the visit count and distance,
apply the per-tile reward, and emit the new progress. -/
def registerFlowStep (s : ScoreState) (tile : Coord) (kind : PipeKind) : ScoreState :=
  if ¬s.flowActive then s
  else
    let currentVisits := (mapGetNat s.currentFlowTiles tile).getD 0
    let maxVisits := getMaxFlowVisits kind
    if currentVisits ≥ maxVisits then s
    else
      let s1 := { s with currentFlowTiles := mapSetNat s.currentFlowTiles tile (currentVisits + 1),
                         currentFlowDistance := s.currentFlowDistance + 1 }
      let s2 := applyScoreDelta s1 s1.flowTileReward
      { s2 with events := s2.events ++ [.flowProgress s2.currentFlowDistance] }

/-- `completeFlow(reason)`: while a flow is active, deactivate it, emit the
final progress, clear the per-flow state, and emit the completion payload. -/
def completeFlow (s : ScoreState) (reason : FlowTerminationReason) : ScoreState :=
  if ¬s.flowActive then s
  else
    let totalTraversed := s.currentFlowDistance
    let goalAchieved := decide ((totalTraversed : Int) ≥ s.targetFlowLength)
    { s with flowActive := false,
             currentFlowTiles := [],
             currentFlowDistance := 0,
             events := s.events ++ [.flowProgress totalTraversed,
               .flowCompleted reason totalTraversed s.targetFlowLength goalAchieved] }

/-- Insert an element into a `Set<Dir>` modelled as a duplicate-free list
(`filledDirs.add(exit)`). -/
def addDir (s : List Dir) (d : Dir) : List Dir :=
  if d ∈ s then s else s ++ [d]

/-- Look up the exit-direction memory `Map<string, Set<Dir>>` keyed by
tile coordinate. -/
def mapGetDirs (m : List (Coord × List Dir)) (c : Coord) : Option (List Dir) :=
  (m.find? (fun p => decide (p.1 = c))).map Prod.snd

/-- Store into the exit-direction memory. -/
def mapSetDirs (m : List (Coord × List Dir)) (c : Coord) (v : List Dir) :
    List (Coord × List Dir) :=
  match m with
  | [] => [(c, v)]
  | p :: rest => if p.1 = c then (c, v) :: rest else p :: mapSetDirs rest c v

/-- The mutable state reachable from `WaterFlowController.startWaterFlow`:
the grid data (read through `getGridData`), the controller's private
per-flow exit-direction memory `hasFlowFrom`, the flowing flag, the score
controller state, and the log of `finalizeWaterSegment` calls made on the
injected animation port (tile, entry, exit). -/
structure FlowMachine where
  gridData : List (List TileState)
  hasFlowFrom : List (Coord × List Dir) := []
  isFlowing : Bool := false
  score : ScoreState
  anims : List (Coord × Option Dir × Dir) := []
deriving DecidableEq, Repr

/-- One-per-tile body of the `while` loop in `startWaterFlow`, written as a
fuel-bounded recursion (the source loop can run unboundedly on cyclic
networks; every terminating run is reproduced with enough fuel, and a
`none` reason marks exhausted fuel).  External `stop()` is not modelled,
so the `manualStop` checks of the source never fire here. -/
def flowLoop (grid : List (List TileState)) :
    Nat → FlowMachine → Coord → Option Dir → FlowMachine × Option FlowTerminationReason
  | 0, m, _, _ => (m, none)
  | fuel + 1, m, current, incoming =>
    match gridGet grid current with
    | none => (m, some .missingPipe)
    | some state =>
      match state.kind with
      | none => (m, some .missingPipe)
      | some kind =>
        if kind = .empty then (m, some .missingPipe)
        else
          let filledDirs := (mapGetDirs m.hasFlowFrom current).getD []
          match determineExitDirection kind (state.rot.getD 0) incoming filledDirs with
          | none => (m, some .noExit)
          | some exit =>
            let m1 := { m with anims := m.anims ++ [(current, incoming, exit)] }
            let m2 := { m1 with hasFlowFrom := mapSetDirs m1.hasFlowFrom current (addDir filledDirs exit) }
            let m3 :=
              if kind ≠ .start then
                { m2 with score := registerFlowStep m2.score current kind }
              else m2
            match getNextCoordinates current exit with
            | none => (m3, some .outOfBounds)
            | some next =>
              let nextState := gridGet grid next
              let incomingDir := OPPOSED_DIRS exit
              if ¬canEnterTile nextState incomingDir then (m3, some .disconnected)
              else flowLoop grid fuel m3 next (some incomingDir)

/-- `startWaterFlow()`: no-op while already flowing or without a start
tile; otherwise clear the exit memory, begin the flow on the score
controller, run the traversal loop from the start tile, and report the
termination reason through `completeFlow`. -/
def startWaterFlow (fuel : Nat) (m : FlowMachine) (startTile : Option Coord) : FlowMachine :=
  if m.isFlowing then m
  else
    match startTile with
    | none => m
    | some st0 =>
      let m1 := { m with isFlowing := true, hasFlowFrom := [], score := beginFlow m.score }
      match flowLoop m1.gridData fuel m1 st0 none with
      | (m2, some reason) => { m2 with isFlowing := false, score := completeFlow m2.score reason }
      | (m2, none) => m2

/-- A pipe queue item (`{ kind, rot }`).  `kind` is an `Option` because the
source draws `allowedPipes[Math.floor(rng() * length)]`, which is
`undefined` when the injected rng strays outside its `[0,1)` contract. -/
structure PipeQueueItem where
  kind : Option PipeKind
  rot : Nat
deriving DecidableEq, Repr

/-- `createRandomPipeItem()`: draw a kind uniformly from the allowed list
and a rotation uniformly from `{0,1,2,3}`, consuming two rng values.  The
rng is modelled as a stream `r` read at positions `t` and `t + 1`. -/
def createRandomPipeItem (allowed : List PipeKind) (r : Nat → ℚ) (t : Nat) : PipeQueueItem :=
  { kind := listGetI allowed ⌊r t * allowed.length⌋,
    rot := (⌊r (t + 1) * 4⌋).toNat }

/-- `fillPipesQueue()` run from an empty queue: push freshly drawn items
until the queue holds `n` of them. -/
def fillPipesQueue (allowed : List PipeKind) (r : Nat → ℚ) : Nat → Nat → List PipeQueueItem
  | _, 0 => []
  | t, n + 1 => createRandomPipeItem allowed r t :: fillPipesQueue allowed r (t + 2) n

/-- The `PipesQueue` constructor: reject `size < 1` and an empty
allowed-kinds list with a synchronous error, otherwise fill the queue. -/
def mkPipesQueue (size : Int) (r : Nat → ℚ) (allowed : List PipeKind) :
    Except String (List PipeQueueItem) :=
  if size < 1 then .error "Pipes queue size must be >= 1"
  else if allowed.length = 0 then .error "Allowed pipes array must not be empty"
  else .ok (fillPipesQueue allowed r 0 size.toNat)

/-- Tile lookup `grid[row]?.[col]` with natural-number indices, as used by
the placement path of `GameController`. -/
def tileAtN (grid : List (List TileState)) (row col : Nat) : Option TileState :=
  (grid[row]?).bind (fun rowL => rowL[col]?)

/-- The grid mutation `gridData[row][col].kind = k; gridData[row][col].rot = rt`
(a no-op out of bounds, where the source would instead throw; callers stay
in bounds). -/
def setTileKindRot (grid : List (List TileState)) (row col : Nat)
    (k : Option PipeKind) (rt : Option Nat) : List (List TileState) :=
  match grid[row]? with
  | none => grid
  | some rowL =>
    match rowL[col]? with
    | none => grid
    | some tile => grid.set row (rowL.set col { tile with kind := k, rot := rt })

/-- Whether a tile currently carries a real pipe
(`!!state?.kind && state.kind !== 'empty'`). -/
def isOccupied (t : TileState) : Bool :=
  match t.kind with
  | some k => decide (k ≠ .empty)
  | none => false

/-- The observable outcome of one `tryPlacePipe` attempt: the returned
boolean, the grid data and queue afterwards, the rng stream position, and
the `wasReplacement` flags reported to the score controller. -/
structure PlaceOutcome where
  success : Bool
  gridData : List (List TileState)
  queue : List PipeQueueItem
  rngCounter : Nat
  placements : List Bool
deriving DecidableEq, Repr

/-- `GameController.tryPlacePipe(col, row, tile)`.  The external `await`
points are modelled by boolean oracles: `setPipeOk` (the render call
`tile.setPipe(pipe.kind, pipe.rot)` resolves), `cbPresent`/`cbOk` (an
`onBeforeQueueShift` callback is installed / resolves), and `restoreOk`
(the restoring `tile.setPipe` inside the catch resolves).  A `false`
oracle is a thrown rejection, caught by the source's outer `catch`. -/
def tryPlacePipe (grid : List (List TileState)) (row col : Nat)
    (queue : List PipeQueueItem) (allowed : List PipeKind) (r : Nat → ℚ) (t : Nat)
    (setPipeOk cbPresent cbOk restoreOk : Bool) : PlaceOutcome :=
  match queue.head? with
  | none => ⟨false, grid, queue, t, []⟩
  | some pipe =>
    let state := tileAtN grid row col
    if state.bind (fun s => s.kind) = some .start then ⟨false, grid, queue, t, []⟩
    else
      let wasReplacement :=
        match state.bind (fun s => s.kind) with
        | some k => decide (k ≠ .empty)
        | none => false
      if ¬setPipeOk then ⟨false, grid, queue, t, []⟩
      else if cbPresent ∧ ¬cbOk then
        if ¬restoreOk then ⟨false, grid, queue, t, []⟩
        else
          let prevKind : Option PipeKind :=
            match state.bind (fun s => s.kind) with
            | some k => some k
            | none => some .empty
          let prevRot : Nat := (state.bind (fun s => s.rot)).getD 0
          let grid2 :=
            if wasReplacement then setTileKindRot grid row col prevKind (some prevRot)
            else setTileKindRot grid row col (some .empty) (some 0)
          ⟨false, grid2, queue, t, []⟩
      else
        let grid2 := setTileKindRot grid row col pipe.kind (some pipe.rot)
        let queue2 := queue.tail ++ [createRandomPipeItem allowed r t]
        ⟨true, grid2, queue2, t + 2, [wasReplacement]⟩

/-- `createEmptyGrid(rows, cols)`: a rows-by-cols matrix of default tiles. -/
def createEmptyGrid (rows cols : Nat) : List (List TileState) :=
  List.replicate rows (List.replicate cols {})

/-- `getAllCells(rows, cols)`: every coordinate in row-major order. -/
def getAllCells (rows cols : Nat) : List Coord :=
  (List.range rows).flatMap (fun row : Nat =>
    (List.range cols).map (fun col : Nat => ⟨(col : Int), (row : Int)⟩))

/-- The destructuring swap `[cells[i], cells[j]] = [cells[j], cells[i]]`
(identity when an index is out of range; the shuffle only uses valid
indices). -/
def swapIdx {α : Type} (l : List α) (i j : Nat) : List α :=
  match l[i]?, l[j]? with
  | some xi, some xj => (l.set i xj).set j xi
  | _, _ => l

/-- The Fisher–Yates loop of `shuffleCells`, iterating the index `i` from
`cells.length - 1` down to `1` and consuming one rng value per step
(`j = Math.min(Math.floor(rng() * (i + 1)), i)`). -/
def shuffleGo {α : Type} (r : Nat → ℚ) : Nat → List α → Nat → List α
  | _, l, 0 => l
  | t, l, k + 1 =>
    let j := min (⌊r t * (k + 1 + 1 : Nat)⌋).toNat (k + 1)
    shuffleGo r (t + 1) (swapIdx l (k + 1) j) k

/-- `shuffleCells(cells, rng)`: in-place Fisher–Yates shuffle. -/
def shuffleCells {α : Type} (l : List α) (r : Nat → ℚ) (t : Nat) : List α :=
  shuffleGo r t l (l.length - 1)

/-- `gridData[row][col].blocked = true` for a blocked coordinate. -/
def markBlocked (grid : List (List TileState)) (c : Coord) : List (List TileState) :=
  match listGetI grid c.row with
  | none => grid
  | some rowL =>
    match listGetI rowL c.col with
    | none => grid
    | some tile => grid.set c.row.toNat (rowL.set c.col.toNat { tile with blocked := true })

/-- Result of `buildInitialBoard`. -/
structure BoardBuildResult where
  gridData : List (List TileState)
  blockedTiles : List Coord
deriving DecidableEq, Repr

/-- `buildInitialBoard({rows, cols, blockedTilesPercentage, rng})`: empty
grid for invalid dimensions; otherwise shuffle all coordinates, take the
first `min(floor(rows * cols * pct), rows * cols - 1)` as blocked, and mark
them on a fresh empty grid. -/
def buildInitialBoard (rows cols : Nat) (pct : ℚ) (r : Nat → ℚ) : BoardBuildResult :=
  if rows = 0 ∨ cols = 0 then ⟨[], []⟩
  else
    let gridData := createEmptyGrid rows cols
    let totalTiles := rows * cols
    let maxBlockable := totalTiles - 1
    let targetBlocks := min (⌊(totalTiles : ℚ) * pct⌋).toNat maxBlockable
    let cells := shuffleCells (getAllCells rows cols) r 0
    let blockedTiles := cells.take targetBlocks
    ⟨blockedTiles.foldl markBlocked gridData, blockedTiles⟩

/-- `isInBounds(grid, col, row)` from `pathfinding.ts`. -/
def isInBounds (grid : List (List TileState)) (col row : Int) : Bool :=
  if row < 0 ∨ (grid.length : Int) ≤ row then false
  else
    let cols := ((listGetI grid row).map List.length).getD 0
    decide (0 ≤ col ∧ col < (cols : Int))

/-- `neighborOf(grid, node, dir)`: the in-bounds neighbor in a direction. -/
def neighborOf (grid : List (List TileState)) (n : Coord) (dir : Dir) : Option Coord :=
  match dir with
  | .top => if isInBounds grid n.col (n.row - 1) then some ⟨n.col, n.row - 1⟩ else none
  | .right => if isInBounds grid (n.col + 1) n.row then some ⟨n.col + 1, n.row⟩ else none
  | .bottom => if isInBounds grid n.col (n.row + 1) then some ⟨n.col, n.row + 1⟩ else none
  | .left => if isInBounds grid (n.col - 1) n.row then some ⟨n.col - 1, n.row⟩ else none

/-- `linkedNeighbors(grid, node)`: neighbors reachable through a port of
this tile that expose the opposing port back.  Note the source filters on
`!tile.kind` truthiness only, so a tile whose kind is the string `empty`
passes the occupancy test but exposes no ports. -/
def linkedNeighbors (grid : List (List TileState)) (node : Coord) : List Coord :=
  match gridGet grid node with
  | none => []
  | some me =>
    match me.kind with
    | none => []
    | some k =>
      if me.blocked then []
      else
        (getPorts k (me.rot.getD 0)).filterMap (fun dir =>
          match neighborOf grid node dir with
          | none => none
          | some nb =>
            match gridGet grid nb with
            | none => none
            | some other =>
              match other.kind with
              | none => none
              | some ok =>
                if other.blocked then none
                else if OPPOSED_DIRS dir ∈ getPorts ok (other.rot.getD 0) then some nb
                else none)

/-- The recursive `dfs` closure of `findLongestConnectedPath`, with the
mutable `path`/`visited`/`best` state passed explicitly (the source
restores `path` and `visited` on exit, so each recursive call observes
exactly these values).  Fuel bounds the recursion depth; the source's
depth is bounded by the number of grid cells, so ample fuel reproduces
it exactly. -/
def dfsAux (grid : List (List TileState)) :
    Nat → Coord → List Coord → List Coord → List Coord → List Coord
  | 0, _, _, _, best => best
  | fuel + 1, node, path, visited, best =>
    if node ∈ visited then best
    else
      match gridGet grid node with
      | none => best
      | some tile =>
        match tile.kind with
        | none => best
        | some _ =>
          if tile.blocked then best
          else
            let visited2 := node :: visited
            let path2 := path ++ [node]
            let nextNodes := (linkedNeighbors grid node).filter (fun nb => decide (nb ∉ visited2))
            let best2 := if nextNodes = [] ∧ best.length < path2.length then path2 else best
            nextNodes.foldl (fun b nb => dfsAux grid fuel nb path2 visited2 b) best2

/-- The row-major scan coordinates of the outer loops of
`findLongestConnectedPath`. -/
def cellsRowMajor (grid : List (List TileState)) : List Coord :=
  (List.range grid.length).flatMap (fun row =>
    (List.range (((grid[row]?).map List.length).getD 0)).map (fun col => ⟨col, row⟩))

/-- Fuel that dominates the source recursion depth: one unit per cell,
plus one. -/
def gridFuel (grid : List (List TileState)) : Nat :=
  grid.foldl (fun a rowL => a + rowL.length) 0 + 1

/-- `findLongestConnectedPath(grid)`: run the DFS from every occupied,
unblocked cell, keeping the longest dead-end path found. -/
def findLongestConnectedPath (grid : List (List TileState)) : List Coord :=
  (cellsRowMajor grid).foldl (fun best node =>
    match gridGet grid node with
    | none => best
    | some tile =>
      match tile.kind with
      | none => best
      | some _ =>
        if tile.blocked then best
        else dfsAux grid (gridFuel grid) node [] [] best) []

/-- The claim-level connectivity relation between two coordinates: both
tiles are present, occupied and unblocked, `a` exposes a rotated port
facing `b`, and `b` exposes the opposite-facing rotated port back. -/
def linkedPair (grid : List (List TileState)) (a b : Coord) : Prop :=
  ∃ (ta tb : TileState) (ka kb : PipeKind) (d : Dir),
    gridGet grid a = some ta ∧ gridGet grid b = some tb ∧
    ta.kind = some ka ∧ tb.kind = some kb ∧
    ka ≠ .empty ∧ kb ≠ .empty ∧
    ta.blocked = false ∧ tb.blocked = false ∧
    neighborOf grid a d = some b ∧
    d ∈ getPorts ka (ta.rot.getD 0) ∧
    OPPOSED_DIRS d ∈ getPorts kb (tb.rot.getD 0)

/-- Rectangularity of a grid: `rows` rows, each of length `cols`. -/
def gridDims (g : List (List TileState)) (rows cols : Nat) : Prop :=
  g.length = rows ∧ ∀ rowL ∈ g, rowL.length = cols

/-! ## Theorems -/

/-- C2: for a flow step at a `cross` tile with entry `inc` among the rotated
ports and used-exit set `filled`, the resolved exit is the direction
opposite `inc` when unused; otherwise the first rotated port that is
neither `inc` nor its opposite and not yet used; otherwise the opposite
direction again even though it is used. -/
theorem C2_cross_exit_resolution (rot : Nat) (inc : Dir) (filled : List Dir)
    (hmem : inc ∈ getPorts .cross rot) :
    determineExitDirection .cross rot (some inc) filled =
      some (if OPPOSED_DIRS inc ∈ filled then
              (((getPorts PipeKind.cross rot).find? (fun d =>
                  decide (d ≠ inc ∧ d ≠ OPPOSED_DIRS inc ∧ d ∉ filled))).getD (OPPOSED_DIRS inc))
            else OPPOSED_DIRS inc) := by
  unfold determineExitDirection
  simp only [hmem, not_true_eq_false, if_false, reduceCtorEq, if_true]
  by_cases hp : OPPOSED_DIRS inc ∈ filled
  · simp only [hp, not_true_eq_false, if_false, if_true]
    cases hf : (getPorts PipeKind.cross rot).find? (fun d =>
        decide (d ≠ inc ∧ d ≠ OPPOSED_DIRS inc ∧ d ∉ filled)) <;>
      simp [hf]
  · simp [hp]

/-- C2 witness: at rotation 0 with entry `top` and no used exits, the cross
resolves to the opposite direction `bottom`. -/
theorem C2_cross_exit_resolution_witness :
    Dir.top ∈ getPorts .cross 0 ∧
      determineExitDirection .cross 0 (some .top) [] = some Dir.bottom := by
  refine ⟨by decide, ?_⟩
  rw [C2_cross_exit_resolution 0 .top [] (by decide)]
  decide

/-- C4: with negative scores disallowed, a delta pushing the score below
zero clamps to exactly zero; a delta whose clamped result equals the
current score leaves the controller state (score and emitted events)
untouched; and a replacement penalty applied at score 0 is a no-op. -/
theorem C4_score_floor (s : ScoreState) (delta : Int)
    (hneg : s.allowNegativeScore = false) :
    (s.score + delta < 0 → (applyScoreDelta s delta).score = 0)
    ∧ ((if s.score + delta < 0 then 0 else s.score + delta) = s.score →
        applyScoreDelta s delta = s)
    ∧ (s.score = 0 → 0 ≤ s.replacementPenalty → handlePipePlacement s true = s) := by
  have hkey : ∀ d : Int, (if s.score + d < 0 then 0 else s.score + d) = s.score →
      applyScoreDelta s d = s := by
    intro d heq
    unfold applyScoreDelta
    simp only [hneg, Bool.false_eq_true, not_false_eq_true, true_and]
    split <;> simp_all
  refine ⟨?_, hkey delta, ?_⟩
  · intro hlt
    unfold applyScoreDelta
    simp only [hneg, Bool.false_eq_true, not_false_eq_true, true_and, hlt, if_true]
    split <;> simp_all
  · intro h0 hpen
    have h2 := hkey (-s.replacementPenalty) (by rw [h0]; split <;> omega)
    unfold handlePipePlacement
    simpa using h2

/-- C4 witness: a controller at score 0 with the replacement penalty 50 and
negative scores disallowed is left exactly unchanged by a replacement. -/
theorem C4_score_floor_witness :
    handlePipePlacement
        { flowTileReward := 10, replacementPenalty := 50, targetFlowLength := 1,
          allowNegativeScore := false } true =
      { flowTileReward := 10, replacementPenalty := 50, targetFlowLength := 1,
        allowNegativeScore := false } :=
  (C4_score_floor
      { flowTileReward := 10, replacementPenalty := 50, targetFlowLength := 1,
        allowNegativeScore := false } 0 rfl).2.2 rfl (by decide)

/-- Helper: the queue-filling loop produces exactly the requested number of
items. -/
theorem fillPipesQueue_length (allowed : List PipeKind) (r : Nat → ℚ) :
    ∀ (n t : Nat), (fillPipesQueue allowed r t n).length = n := by
  intro n
  induction n with
  | zero => intro t; rfl
  | succ k ih => intro t; simp [fillPipesQueue, ih]

/-- C9: constructing the pipe queue with size below 1 or an empty
allowed-kinds list fails synchronously with an error, and with size at
least 1 and a non-empty list it succeeds and fills the queue to exactly
`size` items. -/
theorem C9_queue_construction (size : Int) (r : Nat → ℚ) (allowed : List PipeKind) :
    ((size < 1 ∨ allowed = []) → ∃ msg, mkPipesQueue size r allowed = .error msg)
    ∧ (1 ≤ size → allowed ≠ [] →
        ∃ q, mkPipesQueue size r allowed = .ok q ∧ (q.length : Int) = size) := by
  constructor
  · intro h
    unfold mkPipesQueue
    rcases h with h | h
    · exact ⟨"Pipes queue size must be >= 1", by simp [h]⟩
    · by_cases hs : size < 1
      · exact ⟨"Pipes queue size must be >= 1", by simp [hs]⟩
      · exact ⟨"Allowed pipes array must not be empty", by simp [hs, h]⟩
  · intro h1 hne
    unfold mkPipesQueue
    have hs : ¬size < 1 := by omega
    have hl : ¬allowed.length = 0 := by simpa using hne
    refine ⟨fillPipesQueue allowed r 0 size.toNat, by simp [hs, hl], ?_⟩
    rw [fillPipesQueue_length]
    omega

/-- C9 witness: size 2 with one allowed kind succeeds and yields a queue of
exactly 2 items. -/
theorem C9_queue_construction_witness :
    ∃ q, mkPipesQueue 2 (fun _ => 0) [PipeKind.straight] = .ok q ∧ (q.length : Int) = 2 :=
  (C9_queue_construction 2 (fun _ => 0) [PipeKind.straight]).2 (by decide) (by decide)

/-- C1: evaluating the flow engine on the spec's 1x2 example (a `start`
tile with rotation 0 at (0,0) and a `straight` pipe with ports left/right
at (1,0)).  The run traverses both tiles and reports `totalTraversed = 1`,
but terminates with reason `disconnected`, not `outOfBounds`:
`getNextCoordinates` returns a coordinate for every direction, so the
out-of-bounds branch never fires and the off-grid neighbor is instead
rejected by `canEnterTile`. -/
theorem C1_flow_1x2_example_actual_events :
    (startWaterFlow 10
        { gridData := [[{ kind := some PipeKind.start, rot := some 0 },
                        { kind := some PipeKind.straight, rot := some 0 }]],
          score := { flowTileReward := 10, replacementPenalty := 50,
                     targetFlowLength := 1, allowNegativeScore := false } }
        (some ⟨0, 0⟩)).score.events =
      [ScoreEvent.flowProgress 0, ScoreEvent.scoreChanged 10, ScoreEvent.flowProgress 1,
       ScoreEvent.flowProgress 1,
       ScoreEvent.flowCompleted FlowTerminationReason.disconnected 1 1 true] := by
  decide

/-- C5: for a non-start, non-cross tile, an absent entry direction or one
outside the rotated ports resolves no exit and makes the traversal step
terminate with `noExit`; with a valid entry, the exit is the first rotated
port differing from the entry and unused, else the first port differing
from the entry, else the entry itself. -/
theorem C5_any_available_exit_resolution (k : PipeKind) (rot : Nat) (filled : List Dir)
    (hks : k ≠ .start) (hkc : k ≠ .cross) :
    (determineExitDirection k rot none filled = none)
    ∧ (∀ inc : Dir, inc ∉ getPorts k rot →
        determineExitDirection k rot (some inc) filled = none)
    ∧ (∀ inc : Dir, inc ∈ getPorts k rot →
        determineExitDirection k rot (some inc) filled =
          some ((((getPorts k rot).find? (fun d => decide (d ≠ inc ∧ d ∉ filled))).or
                  ((getPorts k rot).find? (fun d => decide (d ≠ inc)))).getD inc))
    ∧ (∀ (fuel : Nat) (grid : List (List TileState)) (m : FlowMachine) (current : Coord)
        (st : TileState) (incoming : Option Dir),
        gridGet grid current = some st → st.kind = some k → k ≠ .empty →
        st.rot.getD 0 = rot →
        (mapGetDirs m.hasFlowFrom current).getD [] = filled →
        (incoming = none ∨ ∃ d, incoming = some d ∧ d ∉ getPorts k rot) →
        flowLoop grid (fuel + 1) m current incoming = (m, some .noExit)) := by
  have hnone : determineExitDirection k rot none filled = none := by
    unfold determineExitDirection
    simp [hks]
  have hnotin : ∀ inc : Dir, inc ∉ getPorts k rot →
      determineExitDirection k rot (some inc) filled = none := by
    intro inc hinc
    unfold determineExitDirection
    simp [hks, hinc]
  refine ⟨hnone, hnotin, ?_, ?_⟩
  · intro inc hinc
    unfold determineExitDirection
    simp only [hks, if_false, hinc, not_true_eq_false, hkc]
    cases h1 : (getPorts k rot).find? (fun d => decide (d ≠ inc ∧ d ∉ filled)) <;>
      cases h2 : (getPorts k rot).find? (fun d => decide (d ≠ inc)) <;>
        simp [h1, h2, Option.or]
  · intro fuel grid m current st incoming hg hk hke hrot hfill hbad
    have hexit : determineExitDirection k (st.rot.getD 0) incoming
        ((mapGetDirs m.hasFlowFrom current).getD []) = none := by
      rw [hrot, hfill]
      rcases hbad with h | ⟨d, hd, hdmem⟩
      · rw [h]; exact hnone
      · rw [hd]; exact hnotin d hdmem
    unfold flowLoop
    simp [hg, hk, hke, hexit]

/-- C5 witness: a `straight` tile at rotation 0 rejects entry from `top`
(and the loop reports `noExit`), and accepts entry from `left` exiting
`right`. -/
theorem C5_any_available_exit_resolution_witness :
    determineExitDirection PipeKind.straight 0 (some Dir.top) [] = none
    ∧ determineExitDirection PipeKind.straight 0 (some Dir.left) [] = some Dir.right
    ∧ flowLoop [[{ kind := some PipeKind.curve, rot := some 0 }]] 1
        { gridData := [[{ kind := some PipeKind.curve, rot := some 0 }]],
          score := { flowTileReward := 10, replacementPenalty := 50,
                     targetFlowLength := 1, allowNegativeScore := false } }
        ⟨0, 0⟩ none =
      ({ gridData := [[{ kind := some PipeKind.curve, rot := some 0 }]],
         score := { flowTileReward := 10, replacementPenalty := 50,
                    targetFlowLength := 1, allowNegativeScore := false } },
       some FlowTerminationReason.noExit) := by
  refine ⟨?_, ?_, ?_⟩
  · exact (C5_any_available_exit_resolution PipeKind.straight 0 [] (by decide)
      (by decide)).2.1 Dir.top (by decide)
  · rw [(C5_any_available_exit_resolution PipeKind.straight 0 [] (by decide)
      (by decide)).2.2.1 Dir.left (by decide)]
    decide
  · exact (C5_any_available_exit_resolution PipeKind.curve 0 [] (by decide)
      (by decide)).2.2.2 0 _ _ ⟨0, 0⟩ _ none rfl rfl (by decide) rfl rfl (Or.inl rfl)

/-- Helper: writing a visit count and reading it back at the same key. -/
theorem mapGetNat_mapSetNat_self (m : List (Coord × Nat)) (c : Coord) (v : Nat) :
    mapGetNat (mapSetNat m c v) c = some v := by
  induction m with
  | nil => simp [mapGetNat, mapSetNat]
  | cons p rest ih =>
    by_cases h : p.1 = c
    · simp [mapGetNat, mapSetNat, h]
    · simpa [mapGetNat, mapSetNat, h] using ih

/-- Helper: `applyScoreDelta` never changes the flow-active flag. -/
theorem applyScoreDelta_flowActive (s : ScoreState) (d : Int) :
    (applyScoreDelta s d).flowActive = s.flowActive := by
  unfold applyScoreDelta
  dsimp only
  split <;> split <;> rfl

/-- Helper: `applyScoreDelta` never changes the per-flow visit counts. -/
theorem applyScoreDelta_currentFlowTiles (s : ScoreState) (d : Int) :
    (applyScoreDelta s d).currentFlowTiles = s.currentFlowTiles := by
  unfold applyScoreDelta
  dsimp only
  split <;> split <;> rfl

/-- Helper: `applyScoreDelta` never changes the flow distance. -/
theorem applyScoreDelta_currentFlowDistance (s : ScoreState) (d : Int) :
    (applyScoreDelta s d).currentFlowDistance = s.currentFlowDistance := by
  unfold applyScoreDelta
  dsimp only
  split <;> split <;> rfl

/-- Helper: `applyScoreDelta` never changes the configured reward. -/
theorem applyScoreDelta_flowTileReward (s : ScoreState) (d : Int) :
    (applyScoreDelta s d).flowTileReward = s.flowTileReward := by
  unfold applyScoreDelta
  dsimp only
  split <;> split <;> rfl

/-- Helper: a delta that keeps the score non-negative adds exactly. -/
theorem applyScoreDelta_score_of_nonneg (s : ScoreState) (d : Int)
    (hge : 0 ≤ s.score + d) :
    (applyScoreDelta s d).score = s.score + d := by
  unfold applyScoreDelta
  dsimp only
  have hcl : (if ¬s.allowNegativeScore = true ∧ s.score + d < 0 then 0 else s.score + d)
      = s.score + d := by
    split <;> omega
  rw [hcl]
  split
  · next heq => exact heq
  · rfl

/-- Helper: one effective `registerFlowStep` call (active flow, visit count
below the cap, non-negative score and reward) bumps the visit count, the
distance and the score. -/
theorem registerFlowStep_step (s : ScoreState) (tile : Coord) (kind : PipeKind)
    (hact : s.flowActive = true)
    (hcap : (mapGetNat s.currentFlowTiles tile).getD 0 < getMaxFlowVisits kind)
    (h0 : 0 ≤ s.score) (hrew : 0 ≤ s.flowTileReward) :
    (registerFlowStep s tile kind).flowActive = true
    ∧ (registerFlowStep s tile kind).score = s.score + s.flowTileReward
    ∧ (registerFlowStep s tile kind).currentFlowDistance = s.currentFlowDistance + 1
    ∧ (registerFlowStep s tile kind).flowTileReward = s.flowTileReward
    ∧ mapGetNat (registerFlowStep s tile kind).currentFlowTiles tile
        = some ((mapGetNat s.currentFlowTiles tile).getD 0 + 1) := by
  unfold registerFlowStep
  rw [if_neg (by simp [hact]), if_neg (by omega)]
  dsimp only
  refine ⟨?_, ?_, ?_, ?_, ?_⟩
  · rw [applyScoreDelta_flowActive]
    exact hact
  · rw [applyScoreDelta_score_of_nonneg _ _ (by dsimp only; omega)]
  · rw [applyScoreDelta_currentFlowDistance]
  · rw [applyScoreDelta_flowTileReward]
  · rw [applyScoreDelta_currentFlowTiles]
    exact mapGetNat_mapSetNat_self _ _ _

/-- Helper: a `registerFlowStep` call at or above the visit cap is a
no-op. -/
theorem registerFlowStep_capped (s : ScoreState) (tile : Coord) (kind : PipeKind)
    (hact : s.flowActive = true)
    (hcap : getMaxFlowVisits kind ≤ (mapGetNat s.currentFlowTiles tile).getD 0) :
    registerFlowStep s tile kind = s := by
  unfold registerFlowStep
  rw [if_neg (by simp [hact]), if_pos (by omega)]

/-- Helper: the effect of `N` consecutive `registerFlowStep` calls on one
coordinate: with `M` the kind's visit cap and `v` the coordinate's current
visit count, the distance grows by `min N (M - v)` and the score by that
many rewards. -/
theorem registerFlowStep_iterate (tile : Coord) (kind : PipeKind) :
    forall (N : Nat) (s : ScoreState),
      s.flowActive = true → 0 ≤ s.score → 0 ≤ s.flowTileReward →
      ((fun st => registerFlowStep st tile kind)^[N] s).currentFlowDistance
          = s.currentFlowDistance
            + min N (getMaxFlowVisits kind - (mapGetNat s.currentFlowTiles tile).getD 0)
      ∧ ((fun st => registerFlowStep st tile kind)^[N] s).score
          = s.score
            + (min N (getMaxFlowVisits kind - (mapGetNat s.currentFlowTiles tile).getD 0) : Nat)
              * s.flowTileReward := by
  intro N
  induction N with
  | zero => intro s _ _ _; simp
  | succ n ih =>
    intro s hact h0 hrew
    rw [Function.iterate_succ_apply]
    by_cases hcap : getMaxFlowVisits kind ≤ (mapGetNat s.currentFlowTiles tile).getD 0
    · rw [registerFlowStep_capped s tile kind hact hcap]
      obtain ⟨ih1, ih2⟩ := ih s hact h0 hrew
      have hz : getMaxFlowVisits kind - (mapGetNat s.currentFlowTiles tile).getD 0 = 0 := by
        omega
      rw [hz] at ih1 ih2 ⊢
      simpa [ih1] using ih2
    · have hlt : (mapGetNat s.currentFlowTiles tile).getD 0 < getMaxFlowVisits kind := by
        omega
      obtain ⟨ha, hsc, hd, hrw2, hmt⟩ := registerFlowStep_step s tile kind hact hlt h0 hrew
      obtain ⟨ih1, ih2⟩ := ih (registerFlowStep s tile kind) ha
        (by rw [hsc]; omega) (by rw [hrw2]; exact hrew)
      rw [hmt] at ih1 ih2
      have hminEq : min (n + 1)
            (getMaxFlowVisits kind - (mapGetNat s.currentFlowTiles tile).getD 0)
          = 1 + min n
              (getMaxFlowVisits kind - ((mapGetNat s.currentFlowTiles tile).getD 0 + 1)) := by
        simp only [Nat.min_def]
        split <;> split <;> omega
      constructor
      · rw [ih1, hd, hminEq]
        simp only [Option.getD_some]
        omega
      · rw [ih2, hsc, hrw2, hminEq]
        simp only [Option.getD_some]
        push_cast
        ring

/-- C3: while a flow is active, `N` `registerFlowStep` calls on one fresh
coordinate with a kind whose visit cap `M` is below `N` advance the flow
distance by exactly `M` and the score by exactly `M` rewards, not `N`. -/
theorem C3_max_visit_enforcement (s : ScoreState) (tile : Coord) (kind : PipeKind) (N : Nat)
    (hact : s.flowActive = true)
    (hfresh : mapGetNat s.currentFlowTiles tile = none)
    (h0 : 0 ≤ s.score) (hrew : 0 ≤ s.flowTileReward)
    (hMN : getMaxFlowVisits kind < N) :
    ((fun st => registerFlowStep st tile kind)^[N] s).currentFlowDistance
        = s.currentFlowDistance + getMaxFlowVisits kind
    ∧ ((fun st => registerFlowStep st tile kind)^[N] s).score
        = s.score + (getMaxFlowVisits kind : Nat) * s.flowTileReward := by
  have h := registerFlowStep_iterate tile kind N s hact h0 hrew
  rw [hfresh] at h
  have hmin : min N (getMaxFlowVisits kind - (none : Option Nat).getD 0)
      = getMaxFlowVisits kind := by
    simp only [Option.getD_none, Nat.sub_zero]
    omega
  rw [hmin] at h
  exact h

/-- C3 witness: three `registerFlowStep` calls on one coordinate with kind
`cross` (visit cap 2) and reward 10 add exactly 20 to the score and 2 to
the flow distance. -/
theorem C3_max_visit_enforcement_witness :
    ((fun st => registerFlowStep st ⟨0, 0⟩ PipeKind.cross)^[3]
        { flowTileReward := 10, replacementPenalty := 50, targetFlowLength := 1,
          allowNegativeScore := false, flowActive := true }).currentFlowDistance = 0 + 2
    ∧ ((fun st => registerFlowStep st ⟨0, 0⟩ PipeKind.cross)^[3]
        { flowTileReward := 10, replacementPenalty := 50, targetFlowLength := 1,
          allowNegativeScore := false, flowActive := true }).score = 0 + (2 : Nat) * 10 :=
  C3_max_visit_enforcement
    { flowTileReward := 10, replacementPenalty := 50, targetFlowLength := 1,
      allowNegativeScore := false, flowActive := true }
    ⟨0, 0⟩ PipeKind.cross 3 rfl rfl (by decide) (by decide) (by decide)

/-- Helper: the traversal loop never changes the grid data held in the
machine state. -/
theorem flowLoop_gridData_eq (grid : List (List TileState)) :
    ∀ (fuel : Nat) (m : FlowMachine) (c : Coord) (inc : Option Dir),
      ((flowLoop grid fuel m c inc).1).gridData = m.gridData := by
  intro fuel
  induction fuel with
  | zero => intro m c inc; rfl
  | succ k ih =>
    intro m c inc
    unfold flowLoop
    dsimp only
    repeat' split
    all_goals try rfl
    all_goals rw [ih]

/-- C10: `startWaterFlow` never mutates the board: the grid data of the
machine after a flow attempt is identical to the grid data before it,
whatever the termination reason (only the exit-direction memory, the score
controller state and the animation log may differ). -/
theorem C10_startWaterFlow_preserves_grid (fuel : Nat) (m : FlowMachine)
    (startTile : Option Coord) :
    (startWaterFlow fuel m startTile).gridData = m.gridData := by
  unfold startWaterFlow
  by_cases hf : m.isFlowing
  · simp [hf]
  · simp only [hf, if_false, Bool.false_eq_true]
    cases startTile with
    | none => rfl
    | some st0 =>
      simp only []
      have hgl := flowLoop_gridData_eq m.gridData fuel
        { m with isFlowing := true, hasFlowFrom := [], score := beginFlow m.score } st0 none
      cases hrun : flowLoop m.gridData fuel
          { m with isFlowing := true, hasFlowFrom := [], score := beginFlow m.score } st0 none with
      | mk m2 reasonOpt =>
        rw [hrun] at hgl
        cases reasonOpt with
        | none => simpa using hgl
        | some reason => simpa using hgl

/-- Helper: writing a tile leaves every other coordinate unchanged. -/
theorem tileAtN_setTileKindRot_ne (g : List (List TileState)) (row col : Nat)
    (k : Option PipeKind) (rt : Option Nat) (r2 c2 : Nat)
    (h : r2 ≠ row ∨ c2 ≠ col) :
    tileAtN (setTileKindRot g row col k rt) r2 c2 = tileAtN g r2 c2 := by
  unfold setTileKindRot
  cases hrow : g[row]? with
  | none => rfl
  | some rowL =>
    dsimp only
    cases hcol : rowL[col]? with
    | none => rfl
    | some tile =>
      dsimp only
      unfold tileAtN
      rcases h with h | h
      · rw [List.getElem?_set_ne (fun he => h he.symm)]
      · by_cases hr : r2 = row
        · subst hr
          have hlen : r2 < g.length := by
            by_contra hge
            rw [List.getElem?_eq_none (by omega)] at hrow
            exact Option.noConfusion hrow
          rw [List.getElem?_set_self hlen, hrow]
          simp only [Option.bind_some, Option.some_bind]
          rw [List.getElem?_set_ne (fun he => h he.symm)]
        · rw [List.getElem?_set_ne (fun he => hr he.symm)]

/-- Helper: writing a tile updates exactly the targeted coordinate. -/
theorem tileAtN_setTileKindRot_self (g : List (List TileState)) (row col : Nat)
    (k : Option PipeKind) (rt : Option Nat) (t : TileState)
    (hpre : tileAtN g row col = some t) :
    tileAtN (setTileKindRot g row col k rt) row col
      = some { t with kind := k, rot := rt } := by
  unfold tileAtN at hpre
  cases hrow : g[row]? with
  | none => rw [hrow] at hpre; exact Option.noConfusion hpre
  | some rowL =>
    rw [hrow] at hpre
    simp only [Option.some_bind] at hpre
    unfold setTileKindRot
    rw [hrow]
    dsimp only
    rw [hpre]
    dsimp only
    have hrlen : row < g.length := by
      by_contra hge
      rw [List.getElem?_eq_none (by omega)] at hrow
      exact Option.noConfusion hrow
    have hclen : col < rowL.length := by
      by_contra hge
      rw [List.getElem?_eq_none (by omega)] at hpre
      exact Option.noConfusion hpre
    unfold tileAtN
    rw [List.getElem?_set_self hrlen]
    simp only [Option.some_bind]
    rw [List.getElem?_set_self hclen]

/-- C8: every failing placement attempt (empty queue, render call throws,
or before-queue-shift callback throws) returns `false` and leaves the
state uncorrupted: all other tiles untouched, the target tile restored to
its pre-placement kind/rotation (or to empty when it was unoccupied), no
placement reported to the score controller, and the queue not advanced. -/
theorem C8_failed_placement_aborts_cleanly (grid : List (List TileState)) (row col : Nat)
    (queue : List PipeQueueItem) (allowed : List PipeKind) (r : Nat → ℚ) (t : Nat)
    (setPipeOk cbPresent cbOk restoreOk : Bool) (pre : TileState)
    (hpre : tileAtN grid row col = some pre)
    (hfail : queue.head? = none ∨ setPipeOk = false ∨ (cbPresent = true ∧ cbOk = false)) :
    (tryPlacePipe grid row col queue allowed r t setPipeOk cbPresent cbOk restoreOk).success
        = false
    ∧ (tryPlacePipe grid row col queue allowed r t setPipeOk cbPresent cbOk restoreOk).queue
        = queue
    ∧ (tryPlacePipe grid row col queue allowed r t setPipeOk cbPresent cbOk restoreOk).rngCounter
        = t
    ∧ (tryPlacePipe grid row col queue allowed r t setPipeOk cbPresent cbOk restoreOk).placements
        = []
    ∧ (∀ r2 c2 : Nat, r2 ≠ row ∨ c2 ≠ col →
        tileAtN (tryPlacePipe grid row col queue allowed r t setPipeOk cbPresent cbOk
            restoreOk).gridData r2 c2 = tileAtN grid r2 c2)
    ∧ (∃ post, tileAtN (tryPlacePipe grid row col queue allowed r t setPipeOk cbPresent cbOk
            restoreOk).gridData row col = some post
        ∧ post.blocked = pre.blocked
        ∧ (isOccupied pre = true → post.kind = pre.kind ∧ post.rot.getD 0 = pre.rot.getD 0)
        ∧ (isOccupied pre = false → isOccupied post = false)) := by
  cases hq : queue.head? with
  | none =>
    unfold tryPlacePipe
    rw [hq]
    exact ⟨rfl, rfl, rfl, rfl, fun _ _ _ => rfl,
      ⟨pre, hpre, rfl, fun _ => ⟨rfl, rfl⟩, fun h => h⟩⟩
  | some pipe =>
    unfold tryPlacePipe
    rw [hq]
    dsimp only
    by_cases hstart : (tileAtN grid row col).bind (fun s => s.kind) = some PipeKind.start
    · rw [if_pos hstart]
      exact ⟨rfl, rfl, rfl, rfl, fun _ _ _ => rfl,
        ⟨pre, hpre, rfl, fun _ => ⟨rfl, rfl⟩, fun h => h⟩⟩
    · rw [if_neg hstart]
      cases hsp : setPipeOk with
      | false =>
        rw [if_pos (by simp [hsp])]
        exact ⟨rfl, rfl, rfl, rfl, fun _ _ _ => rfl,
          ⟨pre, hpre, rfl, fun _ => ⟨rfl, rfl⟩, fun h => h⟩⟩
      | true =>
        rw [if_neg (by simp [hsp])]
        have hcb : cbPresent = true ∧ cbOk = false := by
          rcases hfail with h | h | h
          · rw [h] at hq; exact Option.noConfusion hq
          · rw [h] at hsp; exact Bool.noConfusion hsp
          · exact h
        rw [if_pos (by simp [hcb.1, hcb.2])]
        cases hro : restoreOk with
        | false =>
          rw [if_pos (by simp [hro])]
          exact ⟨rfl, rfl, rfl, rfl, fun _ _ _ => rfl,
            ⟨pre, hpre, rfl, fun _ => ⟨rfl, rfl⟩, fun h => h⟩⟩
        | true =>
          rw [if_neg (by simp [hro])]
          dsimp only
          rw [hpre]
          dsimp only [Option.some_bind]
          refine ⟨rfl, rfl, rfl, rfl, ?_, ?_⟩
          · intro r2 c2 hne
            split <;> exact tileAtN_setTileKindRot_ne grid row col _ _ r2 c2 hne
          · cases hk : pre.kind with
            | none =>
              simp only [hk]
              rw [if_neg (by simp)]
              refine ⟨{ pre with kind := some PipeKind.empty, rot := some 0 },
                tileAtN_setTileKindRot_self grid row col _ _ pre hpre, rfl, ?_, ?_⟩
              · intro hocc
                rw [isOccupied, hk] at hocc
                exact Bool.noConfusion hocc
              · intro _
                simp [isOccupied]
            | some k =>
              by_cases hke : k = PipeKind.empty
              · subst hke
                simp only [hk]
                rw [if_neg (by simp)]
                refine ⟨{ pre with kind := some PipeKind.empty, rot := some 0 },
                  tileAtN_setTileKindRot_self grid row col _ _ pre hpre, rfl, ?_, ?_⟩
                · intro hocc
                  rw [isOccupied, hk] at hocc
                  simp at hocc
                · intro _
                  simp [isOccupied]
              · simp only [hk]
                rw [if_pos (by simp [hke])]
                refine ⟨{ pre with kind := some k, rot := some (pre.rot.getD 0) },
                  tileAtN_setTileKindRot_self grid row col _ _ pre hpre, rfl, ?_, ?_⟩
                · intro _
                  exact ⟨rfl, rfl⟩
                · intro hocc
                  rw [isOccupied, hk] at hocc
                  simp [hke] at hocc

/-- C8 witness: with a callback installed that throws, placing onto an
occupied `straight` tile returns false and leaves everything intact. -/
theorem C8_failed_placement_aborts_cleanly_witness :
    (tryPlacePipe [[{ kind := some PipeKind.straight, rot := some 1 }]] 0 0
        [⟨some PipeKind.curve, 1⟩] [PipeKind.curve] (fun _ => 0) 0
        true true false true).success = false
    ∧ (tryPlacePipe [[{ kind := some PipeKind.straight, rot := some 1 }]] 0 0
        [⟨some PipeKind.curve, 1⟩] [PipeKind.curve] (fun _ => 0) 0
        true true false true).queue = [⟨some PipeKind.curve, 1⟩]
    ∧ (tryPlacePipe [[{ kind := some PipeKind.straight, rot := some 1 }]] 0 0
        [⟨some PipeKind.curve, 1⟩] [PipeKind.curve] (fun _ => 0) 0
        true true false true).rngCounter = 0
    ∧ (tryPlacePipe [[{ kind := some PipeKind.straight, rot := some 1 }]] 0 0
        [⟨some PipeKind.curve, 1⟩] [PipeKind.curve] (fun _ => 0) 0
        true true false true).placements = [] := by
  have h := C8_failed_placement_aborts_cleanly
    [[{ kind := some PipeKind.straight, rot := some 1 }]] 0 0
    [⟨some PipeKind.curve, 1⟩] [PipeKind.curve] (fun _ => 0) 0
    true true false true { kind := some PipeKind.straight, rot := some 1 } rfl
    (Or.inr (Or.inr ⟨rfl, rfl⟩))
  exact ⟨h.1, h.2.1, h.2.2.1, h.2.2.2.1⟩

/-- Helper: moving the element at index `m` to the front while writing `x`
into its slot is a permutation of consing `x`. -/
theorem cons_get_set_perm {α : Type} :
    ∀ (xs : List α) (m : Nat) (h : m < xs.length) (x : α),
      List.Perm (xs.get ⟨m, h⟩ :: xs.set m x) (x :: xs)
  | y :: ys, 0, _, x => List.Perm.swap x y ys
  | y :: ys, m + 1, h, x => by
    have hm : m < ys.length := by simpa using h
    have step : List.Perm (ys.get ⟨m, hm⟩ :: y :: ys.set m x) (y :: ys.get ⟨m, hm⟩ :: ys.set m x) :=
      List.Perm.swap y (ys.get ⟨m, hm⟩) (ys.set m x)
    have tailp : List.Perm (y :: ys.get ⟨m, hm⟩ :: ys.set m x) (y :: x :: ys) :=
      (cons_get_set_perm ys m hm x).cons y
    have last : List.Perm (y :: x :: ys) (x :: y :: ys) := List.Perm.swap x y ys
    exact ((step.trans tailp).trans last)

/-- Helper: the destructuring swap of two valid indices is a permutation. -/
theorem swapIdx_perm {α : Type} :
    ∀ (l : List α) (i j : Nat), j ≤ i → i < l.length → List.Perm (swapIdx l i j) l := by
  intro l i j
  induction j generalizing l i with
  | zero =>
    intro _ hi
    cases l with
    | nil => simp at hi
    | cons x xs =>
      cases i with
      | zero =>
        simp [swapIdx]
      | succ m =>
        have hm : m < xs.length := by simpa using hi
        unfold swapIdx
        rw [List.getElem?_eq_getElem hi, List.getElem?_eq_getElem (by simp)]
        dsimp only
        have h0 : 0 < (x :: xs).length := by simp
        have hred : ((x :: xs).set (m + 1) ((x :: xs)[0])).set 0 ((x :: xs)[m + 1])
            = xs[m] :: xs.set m x := by
          simp
        rw [hred]
        simpa using cons_get_set_perm xs m hm x
  | succ n ih =>
    intro hj hi
    cases l with
    | nil => simp at hi
    | cons x xs =>
      cases i with
      | zero => omega
      | succ m =>
        have hm : m < xs.length := by simpa using hi
        have hn : n ≤ m := by omega
        have hn2 : n < xs.length := by omega
        have hj2 : n + 1 < (x :: xs).length := by
          simp only [List.length_cons]
          omega
        unfold swapIdx
        rw [List.getElem?_eq_getElem hi, List.getElem?_eq_getElem hj2]
        dsimp only
        have hred : ((x :: xs).set (m + 1) ((x :: xs)[n + 1])).set (n + 1) ((x :: xs)[m + 1])
            = x :: (xs.set m (xs[n])).set n (xs[m]) := by
          simp
        rw [hred]
        have hxs := ih xs m hn hm
        unfold swapIdx at hxs
        rw [List.getElem?_eq_getElem hm, List.getElem?_eq_getElem hn2] at hxs
        exact hxs.cons x

/-- Helper: the Fisher–Yates loop permutes the list. -/
theorem shuffleGo_perm {α : Type} (r : Nat → ℚ) :
    ∀ (k : Nat) (t : Nat) (l : List α), k < l.length → List.Perm (shuffleGo r t l k) l := by
  intro k
  induction k with
  | zero => intro t l _; exact List.Perm.refl l
  | succ n ih =>
    intro t l hk
    unfold shuffleGo
    have hswap : List.Perm (swapIdx l (n + 1) (min (⌊r t * (n + 1 + 1 : Nat)⌋).toNat (n + 1))) l :=
      swapIdx_perm l (n + 1) _ (Nat.min_le_right _ _) hk
    have hlen : n < (swapIdx l (n + 1) (min (⌊r t * (n + 1 + 1 : Nat)⌋).toNat (n + 1))).length := by
      rw [hswap.length_eq]
      omega
    exact (ih (t + 1) _ hlen).trans hswap

/-- Helper: `shuffleCells` permutes its input. -/
theorem shuffleCells_perm {α : Type} (l : List α) (r : Nat → ℚ) (t : Nat) :
    List.Perm (shuffleCells l r t) l := by
  cases l with
  | nil => exact List.Perm.refl _
  | cons x xs =>
    unfold shuffleCells
    exact shuffleGo_perm r _ t _ (by simp)

/-- Helper: the row-major cell enumeration has one entry per cell. -/
theorem getAllCells_length (rows cols : Nat) :
    (getAllCells rows cols).length = rows * cols := by
  unfold getAllCells
  simp [List.length_flatMap, Function.comp_def, List.map_const, List.sum_replicate,
    smul_eq_mul, Nat.mul_comm]

/-- Helper: membership in the cell enumeration is exactly in-range
coordinates. -/
theorem getAllCells_mem (rows cols : Nat) (c : Coord) :
    c ∈ getAllCells rows cols
      ↔ ∃ cc rr : Nat, cc < cols ∧ rr < rows ∧ c = ⟨(cc : Int), (rr : Int)⟩ := by
  unfold getAllCells
  simp only [List.mem_flatMap, List.mem_map, List.mem_range]
  constructor
  · rintro ⟨rr, hrr, cc, hcc, rfl⟩
    exact ⟨cc, rr, hcc, hrr, rfl⟩
  · rintro ⟨cc, rr, hcc, hrr, rfl⟩
    exact ⟨rr, hrr, cc, hcc, rfl⟩

/-- Helper: the cell enumeration has no duplicates. -/
theorem getAllCells_nodup (rows cols : Nat) : (getAllCells rows cols).Nodup := by
  unfold getAllCells
  rw [List.nodup_flatMap]
  constructor
  · intro rr _
    refine List.Nodup.map ?_ (List.nodup_range _)
    intro a b hab
    have : (a : Int) = (b : Int) := congrArg Coord.col hab
    exact_mod_cast this
  · rw [List.pairwise_iff_getElem]
    intro i j hi hj hij
    simp only [Function.onFun, List.getElem_range]
    intro c hci hcj
    simp only [List.mem_map, List.mem_range] at hci hcj
    obtain ⟨a, _, rfl⟩ := hci
    obtain ⟨b, _, hb⟩ := hcj
    have hji : j = i := by
      have := congrArg Coord.row hb
      simpa using this
    omega

/-- Helper: `listGetI` at a natural-number index is plain indexing. -/
theorem listGetI_natCast {α : Type} (l : List α) (n : Nat) :
    listGetI l (n : Int) = l[n]? := by
  unfold listGetI
  rw [if_neg (by omega)]
  rw [Int.toNat_natCast]

/-- Helper: reading a tile after overwriting one slot of one row. -/
theorem tileAtN_set_set (g : List (List TileState)) (row col : Nat)
    (rowL : List TileState) (tileNew : TileState)
    (hrow : g[row]? = some rowL) (hcol : col < rowL.length) (r2 c2 : Nat) :
    tileAtN (g.set row (rowL.set col tileNew)) r2 c2
      = if row = r2 ∧ col = c2 then some tileNew else tileAtN g r2 c2 := by
  have hrlen : row < g.length := by
    by_contra hge
    rw [List.getElem?_eq_none (by omega)] at hrow
    exact Option.noConfusion hrow
  unfold tileAtN
  by_cases hr : row = r2
  · subst hr
    rw [List.getElem?_set_self hrlen, hrow]
    simp only [Option.some_bind]
    by_cases hc : col = c2
    · subst hc
      rw [List.getElem?_set_self hcol]
      simp
    · rw [List.getElem?_set_ne hc]
      simp [hc]
  · rw [List.getElem?_set_ne hr]
    simp [hr]

/-- Helper: marking one in-range coordinate as blocked rewrites that tile
and leaves the rest alone. -/
theorem tileAtN_markBlocked (g : List (List TileState)) (rows cols cc rr : Nat)
    (hdims : gridDims g rows cols) (hcc : cc < cols) (hrr : rr < rows) (r2 c2 : Nat) :
    ∃ told, tileAtN g rr cc = some told ∧
      tileAtN (markBlocked g ⟨(cc : Int), (rr : Int)⟩) r2 c2
        = if rr = r2 ∧ cc = c2 then some { told with blocked := true }
          else tileAtN g r2 c2 := by
  obtain ⟨hglen, hrows⟩ := hdims
  have hrlen : rr < g.length := by omega
  have hrow : g[rr]? = some g[rr] := List.getElem?_eq_getElem hrlen
  have hrowlen : (g[rr]).length = cols := hrows _ (List.getElem_mem hrlen)
  have hclen : cc < (g[rr]).length := by omega
  have hcol : (g[rr])[cc]? = some ((g[rr])[cc]) := List.getElem?_eq_getElem hclen
  refine ⟨(g[rr])[cc], ?_, ?_⟩
  · unfold tileAtN
    rw [hrow]
    simp only [Option.some_bind]
    exact hcol
  · have hred : markBlocked g ⟨(cc : Int), (rr : Int)⟩
        = g.set rr ((g[rr]).set cc { (g[rr])[cc] with blocked := true }) := by
      unfold markBlocked
      dsimp only
      rw [listGetI_natCast, hrow]
      dsimp only
      rw [listGetI_natCast, hcol]
      dsimp only
      rw [Int.toNat_natCast, Int.toNat_natCast]
    rw [hred, tileAtN_set_set g rr cc _ _ hrow hclen r2 c2]

/-- Helper: marking one in-range coordinate preserves the grid shape. -/
theorem markBlocked_dims (g : List (List TileState)) (rows cols : Nat) (c : Coord)
    (hdims : gridDims g rows cols) :
    gridDims (markBlocked g c) rows cols := by
  obtain ⟨hglen, hrows⟩ := hdims
  unfold markBlocked
  cases h1 : listGetI g c.row with
  | none => exact ⟨hglen, hrows⟩
  | some rowL =>
    dsimp only
    cases h2 : listGetI rowL c.col with
    | none => exact ⟨hglen, hrows⟩
    | some tile =>
      dsimp only
      constructor
      · rw [List.length_set]
        exact hglen
      · intro rowM hmem
        rcases List.mem_or_eq_of_mem_set hmem with hmem2 | rfl
        · exact hrows _ hmem2
        · rw [List.length_set]
          have hrmem : rowL ∈ g := by
            unfold listGetI at h1
            split at h1
            · exact Option.noConfusion h1
            · have hi : c.row.toNat < g.length := by
                by_contra hge
                rw [List.getElem?_eq_none (by omega)] at h1
                exact Option.noConfusion h1
              rw [List.getElem?_eq_getElem hi] at h1
              injection h1 with h2
              rw [← h2]
              exact List.getElem_mem hi
          exact hrows _ hrmem

/-- Helper: folding `markBlocked` over in-range coordinates preserves the
shape and sets the blocked flag exactly on the listed coordinates. -/
theorem foldl_markBlocked_spec (rows cols : Nat) :
    ∀ (l : List Coord) (g : List (List TileState)),
      gridDims g rows cols →
      (∀ c ∈ l, ∃ cc rr : Nat, cc < cols ∧ rr < rows ∧ c = ⟨(cc : Int), (rr : Int)⟩) →
      gridDims (l.foldl markBlocked g) rows cols
      ∧ ∀ (r2 c2 : Nat), r2 < rows → c2 < cols →
          ∀ tg, tileAtN g r2 c2 = some tg →
            ∃ tp, tileAtN (l.foldl markBlocked g) r2 c2 = some tp
              ∧ tp.blocked
                  = (tg.blocked || decide ((⟨(c2 : Int), (r2 : Int)⟩ : Coord) ∈ l)) := by
  intro l
  induction l with
  | nil =>
    intro g hdims _
    refine ⟨hdims, ?_⟩
    intro r2 c2 _ _ tg htg
    exact ⟨tg, htg, by simp⟩
  | cons c rest ih =>
    intro g hdims hmem
    obtain ⟨cc, rr, hcc, hrr, rfl⟩ := hmem c (List.mem_cons_self c rest)
    have hdims2 : gridDims (markBlocked g ⟨(cc : Int), (rr : Int)⟩) rows cols :=
      markBlocked_dims g rows cols _ hdims
    have hrest : ∀ c2 ∈ rest, ∃ cc2 rr2 : Nat, cc2 < cols ∧ rr2 < rows
        ∧ c2 = ⟨(cc2 : Int), (rr2 : Int)⟩ :=
      fun c2 hc2 => hmem c2 (List.mem_cons_of_mem _ hc2)
    obtain ⟨ihdims, ihblocked⟩ := ih (markBlocked g ⟨(cc : Int), (rr : Int)⟩) hdims2 hrest
    rw [List.foldl_cons]
    refine ⟨ihdims, ?_⟩
    intro r2 c2 hr2 hc2 tg htg
    obtain ⟨told, htold, hmark⟩ :=
      tileAtN_markBlocked g rows cols cc rr hdims hcc hrr r2 c2
    by_cases heq : rr = r2 ∧ cc = c2
    · rw [if_pos heq] at hmark
      obtain ⟨tp, htp, hblk⟩ := ihblocked r2 c2 hr2 hc2 _ hmark
      refine ⟨tp, htp, ?_⟩
      rw [hblk]
      have hmemc : (⟨(c2 : Int), (r2 : Int)⟩ : Coord)
          ∈ (⟨(cc : Int), (rr : Int)⟩ : Coord) :: rest := by
        rw [heq.1, heq.2]
        exact List.mem_cons_self _ _
      simp [hmemc]
    · rw [if_neg heq] at hmark
      obtain ⟨tp, htp, hblk⟩ := ihblocked r2 c2 hr2 hc2 tg (hmark.trans htg)
      refine ⟨tp, htp, ?_⟩
      rw [hblk]
      have hne : (⟨(c2 : Int), (r2 : Int)⟩ : Coord) ≠ (⟨(cc : Int), (rr : Int)⟩ : Coord) := by
        intro hcontra
        apply heq
        have h1 := congrArg Coord.col hcontra
        have h2 := congrArg Coord.row hcontra
        simp only at h1 h2
        constructor
        · exact_mod_cast h2.symm
        · exact_mod_cast h1.symm
      simp [List.mem_cons, hne]

/-- C6: for positive dimensions and a blocked percentage in `[0,1]`,
`buildInitialBoard` returns exactly `min(floor(rows*cols*pct), rows*cols-1)`
pairwise-distinct blocked coordinates, a rows-by-cols grid, and the grid's
blocked flags hold exactly at the returned coordinates. -/
theorem C6_board_blocked_count (rows cols : Nat) (pct : ℚ) (r : Nat → ℚ)
    (hrows : 0 < rows) (hcols : 0 < cols) (hp0 : 0 ≤ pct) (hp1 : pct ≤ 1)
    (hr : ∀ t, 0 ≤ r t) :
    (buildInitialBoard rows cols pct r).blockedTiles.length
        = min (⌊((rows * cols : Nat) : ℚ) * pct⌋).toNat (rows * cols - 1)
    ∧ (buildInitialBoard rows cols pct r).blockedTiles.Nodup
    ∧ gridDims (buildInitialBoard rows cols pct r).gridData rows cols
    ∧ (∀ ri ci : Nat, ri < rows → ci < cols →
        ∃ tp, tileAtN (buildInitialBoard rows cols pct r).gridData ri ci = some tp
          ∧ (tp.blocked = true
              ↔ (⟨(ci : Int), (ri : Int)⟩ : Coord)
                  ∈ (buildInitialBoard rows cols pct r).blockedTiles)) := by
  have hne : ¬(rows = 0 ∨ cols = 0) := by omega
  unfold buildInitialBoard
  rw [if_neg hne]
  dsimp only
  have hperm := shuffleCells_perm (getAllCells rows cols) r 0
  have hcelllen : (shuffleCells (getAllCells rows cols) r 0).length = rows * cols := by
    rw [hperm.length_eq, getAllCells_length]
  have htot : 1 ≤ rows * cols := Nat.one_le_iff_ne_zero.mpr (by positivity)
  have htb : min (⌊((rows * cols : Nat) : ℚ) * pct⌋).toNat (rows * cols - 1)
      ≤ rows * cols - 1 := Nat.min_le_right _ _
  refine ⟨?_, ?_, ?_, ?_⟩
  · rw [List.length_take, hcelllen]
    omega
  · exact (hperm.nodup_iff.mpr (getAllCells_nodup rows cols)).sublist (List.take_sublist ..)
  · have hdims0 : gridDims (createEmptyGrid rows cols) rows cols := by
      unfold createEmptyGrid
      constructor
      · simp
      · intro rowL hmem
        rw [List.eq_of_mem_replicate hmem]
        simp
    have hmemtake : ∀ c ∈ (shuffleCells (getAllCells rows cols) r 0).take
          (min (⌊((rows * cols : Nat) : ℚ) * pct⌋).toNat (rows * cols - 1)),
        ∃ cc rr : Nat, cc < cols ∧ rr < rows ∧ c = ⟨(cc : Int), (rr : Int)⟩ := by
      intro c hc
      exact (getAllCells_mem rows cols c).mp (hperm.mem_iff.mp (List.mem_of_mem_take hc))
    exact (foldl_markBlocked_spec rows cols _ _ hdims0 hmemtake).1
  · have hdims0 : gridDims (createEmptyGrid rows cols) rows cols := by
      unfold createEmptyGrid
      constructor
      · simp
      · intro rowL hmem
        rw [List.eq_of_mem_replicate hmem]
        simp
    have hmemtake : ∀ c ∈ (shuffleCells (getAllCells rows cols) r 0).take
          (min (⌊((rows * cols : Nat) : ℚ) * pct⌋).toNat (rows * cols - 1)),
        ∃ cc rr : Nat, cc < cols ∧ rr < rows ∧ c = ⟨(cc : Int), (rr : Int)⟩ := by
      intro c hc
      exact (getAllCells_mem rows cols c).mp (hperm.mem_iff.mp (List.mem_of_mem_take hc))
    intro ri ci hri hci
    have hbase : tileAtN (createEmptyGrid rows cols) ri ci = some {} := by
      unfold createEmptyGrid tileAtN
      rw [List.getElem?_replicate, if_pos hri]
      simp only [Option.some_bind]
      rw [List.getElem?_replicate, if_pos hci]
    obtain ⟨tp, htp, hblk⟩ :=
      (foldl_markBlocked_spec rows cols _ _ hdims0 hmemtake).2 ri ci hri hci _ hbase
    refine ⟨tp, htp, ?_⟩
    rw [hblk]
    simp

/-- C6 witness: a 2-by-2 board with percentage 1 and a constant-zero rng
has exactly `min(floor(4*1), 3) = 3` blocked tiles. -/
theorem C6_board_blocked_count_witness :
    (buildInitialBoard 2 2 1 (fun _ => 0)).blockedTiles.length
      = min (⌊((2 * 2 : Nat) : ℚ) * 1⌋).toNat (2 * 2 - 1) :=
  (C6_board_blocked_count 2 2 1 (fun _ => 0) (by omega) (by omega)
    zero_le_one le_rfl (fun _ => le_refl 0)).1

/-- Helper: appending one element to a chain whose relation links the last
element to it. -/
theorem chain_concat_of {α : Type} (R : α → α → Prop) (l : List α) (b : α)
    (hl : List.Chain' R l) (hb : ∀ x ∈ l.getLast?, R x b) :
    List.Chain' R (l ++ [b]) := by
  rw [List.chain'_append]
  refine ⟨hl, List.chain'_singleton b, ?_⟩
  intro x hx y hy
  rw [List.head?_cons, Option.mem_some_iff] at hy
  subst hy
  exact hb x hx

/-- Helper: a linked neighbor satisfies the claim-level connectivity
relation (present, occupied, unblocked tiles with matching opposite
ports). -/
theorem mem_linkedNeighbors_linkedPair (grid : List (List TileState)) (a b : Coord)
    (h : b ∈ linkedNeighbors grid a) : linkedPair grid a b := by
  unfold linkedNeighbors at h
  cases hga : gridGet grid a with
  | none => rw [hga] at h; simp at h
  | some me =>
    rw [hga] at h
    dsimp only at h
    cases hk : me.kind with
    | none => rw [hk] at h; simp at h
    | some ka =>
      rw [hk] at h
      dsimp only at h
      by_cases hbl : me.blocked
      · rw [if_pos hbl] at h
        simp at h
      · rw [if_neg hbl] at h
        rw [List.mem_filterMap] at h
        obtain ⟨d, hd, hfd⟩ := h
        cases hnb : neighborOf grid a d with
        | none => rw [hnb] at hfd; exact absurd hfd (by simp)
        | some nb =>
          rw [hnb] at hfd
          dsimp only at hfd
          cases hgb : gridGet grid nb with
          | none => rw [hgb] at hfd; exact absurd hfd (by simp)
          | some other =>
            rw [hgb] at hfd
            dsimp only at hfd
            cases hok : other.kind with
            | none => rw [hok] at hfd; exact absurd hfd (by simp)
            | some kb =>
              rw [hok] at hfd
              dsimp only at hfd
              by_cases hbl2 : other.blocked
              · rw [if_pos hbl2] at hfd
                exact absurd hfd (by simp)
              · rw [if_neg hbl2] at hfd
                by_cases hport : OPPOSED_DIRS d ∈ getPorts kb (other.rot.getD 0)
                · rw [if_pos hport] at hfd
                  injection hfd with hfd2
                  subst hfd2
                  have hkane : ka ≠ PipeKind.empty := by
                    intro hcon
                    subst hcon
                    simp [getPorts, BASE_PORTS] at hd
                  have hkbne : kb ≠ PipeKind.empty := by
                    intro hcon
                    subst hcon
                    simp [getPorts, BASE_PORTS] at hport
                  exact ⟨me, other, ka, kb, d, hga, hgb, hk, hok, hkane, hkbne,
                    Bool.not_eq_true _ ▸ by simpa using hbl,
                    Bool.not_eq_true _ ▸ by simpa using hbl2,
                    hnb, hd, hport⟩
                · rw [if_neg hport] at hfd
                  exact absurd hfd (by simp)

/-- Helper: the DFS accumulator invariant: if the running path extended by
the current node is a chain of linked neighbors and the best path so far
is such a chain, so is the result of `dfsAux`. -/
theorem dfsAux_chain (grid : List (List TileState)) :
    ∀ (fuel : Nat) (node : Coord) (path visited best : List Coord),
      List.Chain' (fun a b => b ∈ linkedNeighbors grid a) (path ++ [node]) →
      List.Chain' (fun a b => b ∈ linkedNeighbors grid a) best →
      List.Chain' (fun a b => b ∈ linkedNeighbors grid a)
        (dfsAux grid fuel node path visited best) := by
  intro fuel
  induction fuel with
  | zero => intro node path visited best _ hbest; exact hbest
  | succ k ih =>
    intro node path visited best hpath hbest
    unfold dfsAux
    split
    · exact hbest
    · split
      · exact hbest
      · next tile hgt =>
        split
        · exact hbest
        · split
          · exact hbest
          · dsimp only
            have hbest2 :
                List.Chain' (fun a b => b ∈ linkedNeighbors grid a)
                  (if ((linkedNeighbors grid node).filter
                        (fun nb => decide (nb ∉ node :: visited))) = []
                      ∧ best.length < (path ++ [node]).length
                    then path ++ [node] else best) := by
              split
              · exact hpath
              · exact hbest
            have hfold : ∀ (l : List Coord) (acc : List Coord),
                (∀ nb ∈ l, nb ∈ linkedNeighbors grid node) →
                List.Chain' (fun a b => b ∈ linkedNeighbors grid a) acc →
                List.Chain' (fun a b => b ∈ linkedNeighbors grid a)
                  (l.foldl (fun b nb => dfsAux grid k nb (path ++ [node]) (node :: visited) b)
                    acc) := by
              intro l
              induction l with
              | nil => intro acc _ hacc; exact hacc
              | cons nb rest ihl =>
                intro acc hmem hacc
                rw [List.foldl_cons]
                refine ihl _ (fun x hx => hmem x (List.mem_cons_of_mem _ hx)) ?_
                refine ih nb (path ++ [node]) (node :: visited) acc ?_ hacc
                refine chain_concat_of _ _ _ hpath ?_
                intro x hx
                rw [List.getLast?_concat, Option.mem_some_iff] at hx
                subst hx
                exact hmem nb (List.mem_cons_self _ _)
            exact hfold _ _ (fun nb hnb => List.mem_of_mem_filter hnb) hbest2

/-- Helper: the returned longest path is a chain of linked neighbors. -/
theorem findLongestConnectedPath_chain (grid : List (List TileState)) :
    List.Chain' (fun a b => b ∈ linkedNeighbors grid a)
      (findLongestConnectedPath grid) := by
  unfold findLongestConnectedPath
  have hfold : ∀ (l : List Coord) (acc : List Coord),
      List.Chain' (fun a b => b ∈ linkedNeighbors grid a) acc →
      List.Chain' (fun a b => b ∈ linkedNeighbors grid a)
        (l.foldl (fun best node =>
          match gridGet grid node with
          | none => best
          | some tile =>
            match tile.kind with
            | none => best
            | some _ =>
              if tile.blocked then best
              else dfsAux grid (gridFuel grid) node [] [] best) acc) := by
    intro l
    induction l with
    | nil => intro acc hacc; exact hacc
    | cons node rest ihl =>
      intro acc hacc
      rw [List.foldl_cons]
      refine ihl _ ?_
      cases hg : gridGet grid node with
      | none => exact hacc
      | some tile =>
        dsimp only
        cases hk : tile.kind with
        | none => exact hacc
        | some k =>
          dsimp only
          split
          · exact hacc
          · exact dfsAux_chain grid (gridFuel grid) node [] [] acc
              (by simpa using List.chain'_singleton node) hacc
  exact hfold _ [] List.chain'_nil

/-- Helper: an in-bounds neighbor in some direction is orthogonally
adjacent. -/
theorem neighborOf_adjacent (grid : List (List TileState)) (a : Coord) (d : Dir)
    (b : Coord) (h : neighborOf grid a d = some b) :
    (a.col - b.col).natAbs + (a.row - b.row).natAbs = 1 := by
  unfold neighborOf at h
  cases d <;> dsimp only at h <;> split at h <;>
    first
      | exact Option.noConfusion h
      | (injection h with h2; subst h2; dsimp only; omega)

/-- C7: every pair of consecutive coordinates in the path returned by
`findLongestConnectedPath` is orthogonally adjacent, both tiles are
present, occupied (non-empty kind) and unblocked, the first exposes a
rotated port facing the second, and the second exposes the opposite
rotated port back. -/
theorem C7_path_consecutive_connected (grid : List (List TileState)) (i : Nat)
    (hi : i + 1 < (findLongestConnectedPath grid).length) :
    linkedPair grid ((findLongestConnectedPath grid).get ⟨i, by omega⟩)
        ((findLongestConnectedPath grid).get ⟨i + 1, hi⟩)
    ∧ (((findLongestConnectedPath grid).get ⟨i, by omega⟩).col
          - ((findLongestConnectedPath grid).get ⟨i + 1, hi⟩).col).natAbs
        + (((findLongestConnectedPath grid).get ⟨i, by omega⟩).row
          - ((findLongestConnectedPath grid).get ⟨i + 1, hi⟩).row).natAbs = 1 := by
  have hchain := findLongestConnectedPath_chain grid
  rw [List.chain'_iff_get] at hchain
  have hrel := hchain i (by omega)
  have hlp := mem_linkedNeighbors_linkedPair grid _ _ hrel
  refine ⟨hlp, ?_⟩
  obtain ⟨ta, tb, ka, kb, d, _, _, _, _, _, _, _, _, hnb, _, _⟩ := hlp
  exact neighborOf_adjacent grid _ d _ hnb

/-- C7 witness: on a one-row grid `start, straight, curve(rot 2)` the
returned path visits all three tiles left to right; its first two entries
satisfy the connectivity relation. -/
theorem C7_path_consecutive_connected_witness :
    1 + 1 < (findLongestConnectedPath
        [[{ kind := some PipeKind.start, rot := some 0 },
          { kind := some PipeKind.straight, rot := some 0 },
          { kind := some PipeKind.curve, rot := some 2 }]]).length
    ∧ linkedPair
        [[{ kind := some PipeKind.start, rot := some 0 },
          { kind := some PipeKind.straight, rot := some 0 },
          { kind := some PipeKind.curve, rot := some 2 }]]
        ((findLongestConnectedPath
          [[{ kind := some PipeKind.start, rot := some 0 },
            { kind := some PipeKind.straight, rot := some 0 },
            { kind := some PipeKind.curve, rot := some 2 }]]).get ⟨0, by decide⟩)
        ((findLongestConnectedPath
          [[{ kind := some PipeKind.start, rot := some 0 },
            { kind := some PipeKind.straight, rot := some 0 },
            { kind := some PipeKind.curve, rot := some 2 }]]).get ⟨1, by decide⟩) :=
  ⟨by decide,
    (C7_path_consecutive_connected
      [[{ kind := some PipeKind.start, rot := some 0 },
        { kind := some PipeKind.straight, rot := some 0 },
        { kind := some PipeKind.curve, rot := some 2 }]] 0 (by decide)).1⟩

end PipeMania